import Mathlib

/-!
Verification of the fold-entity-row component (src/main.ts).

The component is embedded shallowly: JavaScript values are modelled by
`JSVal` (with JS truthiness, `||`, `??` and property-access semantics),
the component's reactive fields by `CompState`, and each method of the
`FoldEntityRow` class by a state-transformer on `CompState`.  The
asynchronous parts run under the single-threaded cooperative model of the
code: every `await` of an already-created promise is resolved eagerly, and
the one genuine suspension point (waiting for the shared `hass` context in
`_load_rows`) is modelled explicitly by the `LoadOutcome.suspended`
constructor together with the `hassResolve` waiter field.  `Promise.all`
with out-of-order task completion is modelled by `promiseAll`, which
replays an arbitrary completion order over an index-addressed result
buffer.  Ghost fields (`id`, `hassPushes`, `srcDesc`, `rowsArrId`,
`factoryCalls`, `nextId`) record object identity and effect counts; they
never influence control flow.
-/

namespace FoldEntityRow

/-- A JavaScript value, as far as the component inspects values:
`undefined`, `null`, booleans, numbers (integer model), strings, arrays
and plain objects (association lists). -/
inductive JSVal where
  | undef : JSVal
  | null : JSVal
  | bool : Bool → JSVal
  | num : Int → JSVal
  | str : String → JSVal
  | arr : List JSVal → JSVal
  | obj : List (String × JSVal) → JSVal
deriving Repr

namespace JSVal

/-- JS truthiness: `undefined`, `null`, `false`, `0` and `""` are falsy;
arrays and objects (including empty ones) are truthy. -/
def truthy : JSVal → Bool
  | .undef => false
  | .null => false
  | .bool b => b
  | .num n => n != 0
  | .str s => s != ""
  | .arr _ => true
  | .obj _ => true

/-- `undefined` test (strict equality with `undefined`). -/
def isUndef : JSVal → Bool
  | .undef => true
  | _ => false

/-- Nullish test (`undefined` or `null`), as used by `??` and `?.`. -/
def isNullish : JSVal → Bool
  | .undef => true
  | .null => true
  | _ => false

/-- `Array.isArray`. -/
def isArr : JSVal → Bool
  | .arr _ => true
  | _ => false

end JSVal

open JSVal

/-- JS `a || b`: the first operand when truthy, otherwise the second. -/
def jsOr (a b : JSVal) : JSVal :=
  if truthy a then a else b

/-- JS `a ?? b`: the first operand when non-nullish, otherwise the second. -/
def jsCoalesce (a b : JSVal) : JSVal :=
  if isNullish a then b else a

/-- Field lookup inside an object's association list (first binding wins,
as JS objects have unique keys). -/
def lookupField : List (String × JSVal) → String → JSVal
  | [], _ => .undef
  | (k, v) :: rest, key => if k = key then v else lookupField rest key

/-- Property access `v.k` on a non-nullish value: objects yield the bound
field (or `undefined`), primitives and arrays yield `undefined` (the
component never reads built-in properties through this path). -/
def getField (v : JSVal) (k : String) : JSVal :=
  match v with
  | .obj fs => lookupField fs k
  | _ => (.undef)

/-- A runtime failure: a thrown `TypeError` (property access on a nullish
value) or a thrown `Error(msg)`. -/
inductive JSErr where
  | typeError (msg : String) : JSErr
  | error (msg : String) : JSErr
deriving Repr, DecidableEq

/-- Strict property access `v.k`: throws a `TypeError` when `v` is
`undefined` or `null`, otherwise reads the field. -/
def getFieldE (v : JSVal) (k : String) : Except JSErr JSVal :=
  match v with
  | .undef => .error (.typeError ("Cannot read properties of undefined (reading " ++ k ++ ")"))
  | .null => .error (.typeError ("Cannot read properties of null (reading " ++ k ++ ")"))
  | _ => .ok (getField v k)

/-- Optional chaining `v?.k`: `undefined` when `v` is nullish, otherwise
plain property access. -/
def optField (v : JSVal) (k : String) : JSVal :=
  if isNullish v then .undef else getField v k

/-- JS property-key coercion of the values the component indexes with
(entity ids are strings; other cases spelled out for totality). -/
def keyOf : JSVal → String
  | .str s => s
  | .num n => toString n
  | .bool b => if b then "true" else "false"
  | .undef => "undefined"
  | .null => "null"
  | .arr _ => ""
  | .obj _ => ""

/-- `ensureObject` (main.ts line 34): `undefined` stays `undefined`, a
string `s` becomes `{entity: s}`, everything else is returned as is. -/
def ensureObject : JSVal → JSVal
  | .undef => .undef
  | .str s => .obj [("entity", .str s)]
  | v => v

/-- Write a key into an object's field list (overwrite if present,
append otherwise), the effect of a later spread entry. -/
def setKey (fs : List (String × JSVal)) (k : String) (v : JSVal) : List (String × JSVal) :=
  if fs.any (fun p => p.1 = k) then
    fs.map (fun p => if p.1 = k then (k, v) else p)
  else
    fs ++ [(k, v)]

/-- Fields contributed by spreading a value: an object's bindings;
`undefined`/`null`/primitives contribute nothing (string/array index
spreading is not exercised by the component's configs). -/
def spreadFields : JSVal → List (String × JSVal)
  | .obj fs => fs
  | _ => []

/-- Object spread `{...a, ...b}` with the right operand overriding. -/
def spreadMerge (a b : JSVal) : JSVal :=
  .obj ((spreadFields b).foldl (fun acc p => setKey acc p.1 p.2) (spreadFields a))

/-- The `FoldEntityRowConfig` interface (main.ts lines 13-25).  Each field
is a `JSVal`; `.undef` stands for an absent field (a field explicitly set
to `undefined` behaves identically everywhere the component reads it).
The `open` field is named `open_` because `open` is a Lean keyword. -/
structure Config where
  entity : JSVal := .undef
  head : JSVal := .undef
  entities : JSVal := .undef
  items : JSVal := .undef
  group_config : JSVal := .undef
  clickable : JSVal := .undef
  open_ : JSVal := .undef
  padding : JSVal := .undef
  state_color : JSVal := .undef
  mute : JSVal := .undef
deriving Repr

/-- `Object.assign({}, DEFAULT_CONFIG, config)` (main.ts lines 27-32, 51):
fills `open`, `padding` and `group_config` with their defaults when the
incoming config leaves them undefined. -/
def applyDefaults (c : Config) : Config :=
  { c with
    open_ := if isUndef c.open_ then .bool false else c.open_
    padding := if isUndef c.padding then .num 24 else c.padding
    group_config := if isUndef c.group_config then .obj [] else c.group_config }

/-- An opaque row element returned by the external row factory
(`LovelaceElement`).  `cfg` is the effective config handed to
`createRowElement`; `srcDesc` (ghost) is the normalized descriptor the
row was requested for, before merging; `hass` is the mutable shared
context slot; `hassPushes` (ghost) counts assignments to that slot;
`id` (ghost) is the allocation identity of the element. -/
structure Handle where
  cfg : JSVal
  srcDesc : JSVal
  isHead : Bool
  hass : JSVal
  hassPushes : Nat
  id : Nat
  ariaChecked : JSVal
  ariaLabel : JSVal
  role : JSVal
  tabIndex : JSVal
deriving Repr

/-- The collapsible container's mutable style state. -/
structure Container where
  height : Option String
  overflow : String
deriving Repr, DecidableEq

/-- The component's reactive state.  `open_` mirrors `this.open`
(`undefined` before the first `setConfig`); `head` is `none` while
`this.head` is unassigned (i.e. `_load_head` threw before assigning it);
`hassResolve` stores, when a `_load_rows` call is suspended waiting for
the shared context, the suspended frame's local `head` descriptor;
`rowsArrId` (ghost) is the allocation identity of the current
`this.rows` array; `nextId` (ghost) is the allocation counter and
`factoryCalls` (ghost) counts calls to the external row factory. -/
structure CompState where
  config : Config
  open_ : JSVal
  showContent : JSVal
  rows : List Handle
  rowsArrId : Nat
  head : Option Handle
  hass : JSVal
  hassResolve : Option JSVal
  parentStateColor : JSVal
  container : Container
  nextId : Nat
  factoryCalls : Nat
deriving Repr

/-- The component as constructed, before any `setConfig`. -/
def initState : CompState :=
  { config := {}
    open_ := .undef
    showContent := .undef
    rows := []
    rowsArrId := 0
    head := none
    hass := .undef
    hassResolve := none
    parentStateColor := .undef
    container := { height := some "0px", overflow := "hidden" }
    nextId := 1
    factoryCalls := 0 }

/-- `_createRow` (main.ts lines 125-145): computes the effective
`state_color` (`this._config.state_color ?? parent fallback`, the parent
lookup being an external input held in `parentStateColor`), builds the
effective config `{state_color, ...(head ? {} : group_config), ...config}`
and requests the element from the factory, injecting the shared context
immediately when it is already truthy.  The styling hook is an external
side effect without observable state here. -/
def _createRow (s : CompState) (cfg0 : JSVal) (isHead : Bool) (rid : Nat) : Handle :=
  let state_color := jsCoalesce s.config.state_color s.parentStateColor
  let eff := spreadMerge
    (spreadMerge (.obj [("state_color", state_color)])
      (if isHead then .obj [] else s.config.group_config))
    cfg0
  { cfg := eff
    srcDesc := cfg0
    isHead := isHead
    hass := if truthy s.hass then s.hass else .undef
    hassPushes := if truthy s.hass then 1 else 0
    id := rid
    ariaChecked := .undef
    ariaLabel := .undef
    role := .undef
    tabIndex := .undef }

/-- `_load_head` (main.ts lines 60-93): resolve the head descriptor from
`entity || head`, throw `"No fold head specified"` when it is falsy,
auto-derive `clickable` when unset, create the header row, and — when
clickable — make it tab-reachable with role `switch` and `aria` state
reflecting `this.open`.  (The `selectTree` probe only decides which
gesture binding forwards to `toggle`; both branches are external and set
the same attributes, so the binding choice is not part of the state.) -/
def _load_head (s : CompState) : Except JSErr CompState :=
  let headCfg := ensureObject (jsOr s.config.entity s.config.head)
  if ¬ truthy headCfg then
    .error (.error "No fold head specified")
  else
    let cfg' :=
      if isUndef s.config.clickable
          ∧ isUndef (getField headCfg "entity")
          ∧ isUndef (getField headCfg "tap_action") then
        { s.config with clickable := .bool true }
      else s.config
    let s1 : CompState := { s with config := cfg' }
    let h0 := _createRow s1 headCfg true s1.nextId
    let h :=
      if truthy cfg'.clickable then
        { h0 with
          tabIndex := .num 0
          role := .str "switch"
          ariaLabel := .str (if truthy s1.open_ then "Toggle fold closed" else "Toggle fold open")
          ariaChecked := .str (if truthy s1.open_ then "true" else "false") }
      else h0
    .ok { s1 with
          head := some h
          nextId := s1.nextId + 1
          factoryCalls := s1.factoryCalls + 1 }

/-- Outcome of a method whose body may throw or suspend: `ok` with the
new state, `err` with the thrown error and the state at the throw, or
`suspended` when the body is parked on the pending-context waiter. -/
inductive LoadOutcome where
  | ok (s : CompState) : LoadOutcome
  | err (e : JSErr) (s : CompState) : LoadOutcome
  | suspended (s : CompState) : LoadOutcome
deriving Repr

/-- The component state carried by a `LoadOutcome`. -/
def stateOf : LoadOutcome → CompState
  | .ok s => s
  | .err _ s => s
  | .suspended s => s

/-- The tail of `_load_rows` (main.ts lines 111-122): validate the
resolved `items` value (`undefined` → `"No entities specified."`, falsy
or not an array → `"Entities must be a list."`) and materialize one child
row per item, in item order, through the factory.  Fresh ids
`s.nextId .. s.nextId+n-1` go to the handles and `s.nextId+n` to the new
`this.rows` array. -/
def finish_load_rows (s : CompState) (items : JSVal) : LoadOutcome :=
  if isUndef items then
    .err (.error "No entities specified.") s
  else if ¬ truthy items then
    .err (.error "Entities must be a list.") s
  else
    match items with
    | .arr xs =>
      let handles := (xs.map ensureObject).enum.map
        (fun p => _createRow s p.2 false (s.nextId + p.1))
      .ok { s with
            rows := handles
            rowsArrId := s.nextId + xs.length
            nextId := s.nextId + xs.length + 1
            factoryCalls := s.factoryCalls + xs.length }
    | _ => .err (.error "Entities must be a list.") s

/-- The part of `_load_rows` from `this._hassResolve = undefined` on
(main.ts lines 108-122), entered either directly (context already
available) or on resumption after the waiter fires: read the group
membership `this.hass.states[head.entity]?.attributes?.entity_id` and
finish loading.  `headCfg` is the suspended frame's local `head`. -/
def load_rows_resume (s0 : CompState) (headCfg : JSVal) : LoadOutcome :=
  let s : CompState := { s0 with hassResolve := none }
  match getFieldE s.hass "states" with
  | .error e => .err e s
  | .ok states =>
    match getFieldE states (keyOf (getField headCfg "entity")) with
    | .error e => .err e s
    | .ok entry =>
      finish_load_rows s (optField (optField entry "attributes") "entity_id")

/-- `_load_rows` (main.ts lines 95-123): return the cached rows when the
list is non-empty; otherwise pick the item source as
`entities || items`, falling back to the head entity's group members
(suspending on the waiter when the context has not arrived) only when
the explicit value is `undefined`, then validate and materialize.  Note
that `head.entity` is read unconditionally, so a nullish resolved head
throws a `TypeError` here. -/
def _load_rows (s : CompState) : LoadOutcome :=
  if s.rows.length ≠ 0 then
    .ok s
  else
    let headCfg := ensureObject (jsOr s.config.entity s.config.head)
    let items := jsOr s.config.entities s.config.items
    match getFieldE headCfg "entity" with
    | .error e => .err e s
    | .ok he =>
      if truthy he ∧ isUndef items then
        if isUndef s.hass then
          .suspended { s with hassResolve := some headCfg }
        else
          load_rows_resume s headCfg
      else
        finish_load_rows s items

/-- Result of `setConfig`: `headErr` is the (otherwise unobserved)
rejection of the fire-and-forget `_load_head()` promise; `outcome`
carries the final state together with the eager `_load_rows` result when
the new config's `open` triggered it. -/
structure SetConfigResult where
  headErr : Option JSErr
  outcome : LoadOutcome
deriving Repr

/-- `setConfig` (main.ts lines 50-58): merge defaults, keep `this.open`
if already set (else take the config's `open`, else `false`), mirror it
into `_showContent`, run `_load_head` (whose rejection does not abort
`setConfig`), reset `this.rows` to a fresh empty array, and eagerly load
rows only when the new merged config's `open` is truthy. -/
def setConfig (s0 : CompState) (raw : Config) : SetConfigResult :=
  let cfg := applyDefaults raw
  let s1 : CompState := { s0 with config := cfg }
  let s1 : CompState :=
    { s1 with open_ := jsCoalesce s1.open_ (jsCoalesce cfg.open_ (.bool false)) }
  let s1 : CompState := { s1 with showContent := s1.open_ }
  let headRes :=
    match _load_head s1 with
    | .ok s' => (s', (none : Option JSErr))
    | .error e => (s1, some e)
  let s2 := headRes.1
  let s3 : CompState :=
    { s2 with rows := [], rowsArrId := s2.nextId, nextId := s2.nextId + 1 }
  if truthy cfg.open_ then
    { headErr := headRes.2, outcome := _load_rows s3 }
  else
    { headErr := headRes.2, outcome := .ok s3 }

/-- `toggle` (main.ts lines 183-211): compute `newOpen = !this.open`, pin
overflow, on opening mount the content (`_showContent = true`) and await
`_load_rows` (aborting on its failure, parking on its suspension), set
the container height to the measured `scrollHeight` (or `"auto"` when it
measures zero), on closing drop the height to `"0px"` after the deferred
step, commit `this.open = newOpen`, and when the config is clickable
update the header's `aria` state (a `TypeError` if the header promise
was never assigned). -/
def toggle (s0 : CompState) (scrollHeight : Nat) : LoadOutcome :=
  let newOpen := ! truthy s0.open_
  let s : CompState :=
    { s0 with container := { s0.container with overflow := "hidden" } }
  let afterLoad :=
    if newOpen then
      _load_rows { s with showContent := .bool true }
    else
      .ok s
  match afterLoad with
  | .err e s' => .err e s'
  | .suspended s' => .suspended s'
  | .ok s1 =>
    let s2 : CompState :=
      { s1 with container :=
          { s1.container with
            height := some (if scrollHeight ≠ 0 then toString scrollHeight ++ "px" else "auto") } }
    let s3 : CompState :=
      if ! newOpen then
        { s2 with container := { s2.container with height := some "0px" } }
      else s2
    let s4 : CompState := { s3 with open_ := .bool newOpen }
    if truthy s4.config.clickable then
      match s4.head with
      | none =>
        .err (.typeError "Cannot set properties of undefined (setting ariaLabel)") s4
      | some h =>
        let h' :=
          { h with
            ariaLabel := .str (if newOpen then "Toggle fold closed" else "Toggle fold open")
            ariaChecked := .str (if newOpen then "true" else "false") }
        .ok { s4 with head := some h' }
    else
      .ok s4

/-- `_transitionEnd` (main.ts lines 260-264): clear the height override,
set overflow from the committed `open`, and let the content-mounted flag
catch up with `open`. -/
def _transitionEnd (s : CompState) : CompState :=
  { s with
    container := { height := none, overflow := if truthy s.open_ then "initial" else "hidden" }
    showContent := s.open_ }

/-- Assignment of the context slot on a row handle (`e.hass = hass`). -/
def pushHass (ctx : JSVal) (r : Handle) : Handle :=
  { r with hass := ctx, hassPushes := r.hassPushes + 1 }

/-- The `hass`-changed branch of `updated` (main.ts lines 219-223),
together with the property assignment that triggered it: store the new
context, push it onto every cached child row and onto the header handle
(resolved eagerly under the cooperative model), and when the
pending-context waiter exists fire it, resuming the suspended
`_load_rows` frame. -/
def updated (s0 : CompState) (ctx : JSVal) : LoadOutcome :=
  let s : CompState := { s0 with hass := ctx }
  let s : CompState := { s with rows := s.rows.map (pushHass ctx) }
  let s : CompState := { s with head := s.head.map (pushHass ctx) }
  match s.hassResolve with
  | some headCfg => load_rows_resume s headCfg
  | none => .ok s

/-- One task completion under the `Promise.all` model: task `i`
finishes and writes its value into slot `i` of the result buffer. -/
def completeStep (tasks : List α) (acc : List (Option α)) (i : Nat) : List (Option α) :=
  match tasks[i]? with
  | some v => acc.set i (some v)
  | none => acc

/-- `Promise.all` under an explicit completion order: `tasks` are the
per-index results of the concurrent factory calls, `order` lists the
indices in the order the calls complete, and each completion writes its
slot in an index-addressed buffer that starts out unfilled. -/
def promiseAll (order : List Nat) (tasks : List α) : List (Option α) :=
  order.foldl (completeStep tasks) (List.replicate tasks.length (none : Option α))


/-! ## General lemmas about the embedding -/

theorem getFieldE_of_not_nullish (v : JSVal) (k : String) (h : isNullish v = false) :
    getFieldE v k = .ok (getField v k) := by
  cases v <;> simp_all [isNullish, getFieldE]

theorem jsOr_of_truthy (a b : JSVal) (h : truthy a = true) : jsOr a b = a := by
  simp [jsOr, h]

theorem jsOr_of_falsy (a b : JSVal) (h : truthy a = false) : jsOr a b = b := by
  simp [jsOr, h]

theorem isUndef_of_not_nullish (v : JSVal) (h : isNullish v = false) : isUndef v = false := by
  cases v <;> simp_all [isNullish, isUndef]

/-- Reduction of `_load_rows` on an empty cache when the explicit item
source (`entities || items`) resolves to an array: the rows are
materialized from that array, in order, with fresh identities. -/
theorem _load_rows_of_explicit_arr (s : CompState) (xs : List JSVal)
    (hrows : s.rows = [])
    (hhead : isNullish (ensureObject (jsOr s.config.entity s.config.head)) = false)
    (hitems : jsOr s.config.entities s.config.items = .arr xs) :
    _load_rows s = .ok { s with
      rows := (xs.map ensureObject).enum.map (fun p => _createRow s p.2 false (s.nextId + p.1))
      rowsArrId := s.nextId + xs.length
      nextId := s.nextId + xs.length + 1
      factoryCalls := s.factoryCalls + xs.length } := by
  have hge := getFieldE_of_not_nullish (ensureObject (jsOr s.config.entity s.config.head)) "entity" hhead
  unfold _load_rows
  rw [if_neg (by simp [hrows])]
  simp only [hitems, hge]
  rw [if_neg (by simp [isUndef])]
  simp [finish_load_rows, isUndef, truthy]

/-- The list of pre-merge descriptors of the rows materialized from a
resolved array is exactly the normalized item list, in order. -/
theorem srcDesc_of_materialized (s : CompState) (xs : List JSVal) :
    ((xs.map ensureObject).enum.map
        (fun p => _createRow s p.2 false (s.nextId + p.1))).map Handle.srcDesc
      = xs.map ensureObject := by
  rw [List.map_map]
  have hco : (Handle.srcDesc ∘ fun p : Nat × JSVal => _createRow s p.2 false (s.nextId + p.1))
      = Prod.snd := by
    funext p
    simp [_createRow]
  rw [hco, List.enum_map_snd]

/-! ## C1: item-source priority -/

/-- Anything whose pre-merge descriptor is outside the normalized item
list was not materialized from it. -/
theorem srcDesc_not_mem (rows : List Handle) (xs : List JSVal)
    (hmap : rows.map Handle.srcDesc = xs.map ensureObject) :
    ∀ b : JSVal, (∀ e ∈ xs, ensureObject e ≠ b) → ∀ r ∈ rows, r.srcDesc ≠ b := by
  intro b hb r hr heq
  have hmem : r.srcDesc ∈ xs.map ensureObject := by
    rw [← hmap]
    exact List.mem_map_of_mem Handle.srcDesc hr
  rcases List.mem_map.mp hmem with ⟨e, he, heq'⟩
  exact hb e he (heq'.trans heq)

/-- Reduction of `_load_rows` through the derived-group source: both
explicit sources undefined, a defined head entity, and an already
available context whose state table maps that entity to an
`attributes.entity_id` array — the rows are materialized from the group
members, with the waiter slot cleared. -/
theorem _load_rows_of_group_arr (s : CompState) (gs : List JSVal)
    (hrows : s.rows = [])
    (hhead : isNullish (ensureObject (jsOr s.config.entity s.config.head)) = false)
    (hei : jsOr s.config.entities s.config.items = .undef)
    (hhe : truthy (getField (ensureObject (jsOr s.config.entity s.config.head)) "entity") = true)
    (hhass : isNullish s.hass = false)
    (hstates : isNullish (getField s.hass "states") = false)
    (hgv : optField (optField (getField (getField s.hass "states")
        (keyOf (getField (ensureObject (jsOr s.config.entity s.config.head)) "entity")))
      "attributes") "entity_id" = .arr gs) :
    _load_rows s = .ok { s with
      hassResolve := none
      rows := (gs.map ensureObject).enum.map
        (fun p => _createRow { s with hassResolve := none } p.2 false (s.nextId + p.1))
      rowsArrId := s.nextId + gs.length
      nextId := s.nextId + gs.length + 1
      factoryCalls := s.factoryCalls + gs.length } := by
  have hge := getFieldE_of_not_nullish (ensureObject (jsOr s.config.entity s.config.head)) "entity" hhead
  unfold _load_rows
  rw [if_neg (by simp [hrows])]
  simp only [hge]
  rw [hei]
  rw [if_pos (show truthy (getField (ensureObject (jsOr s.config.entity s.config.head)) "entity")
      = true ∧ isUndef JSVal.undef = true from ⟨hhe, rfl⟩)]
  rw [if_neg (by simp [isUndef_of_not_nullish s.hass hhass])]
  unfold load_rows_resume
  dsimp only
  simp only [getFieldE_of_not_nullish s.hass "states" hhass,
    getFieldE_of_not_nullish (getField s.hass "states") _ hstates]
  rw [hgv]
  simp [finish_load_rows, isUndef, truthy]

/-- C1: for every configuration with a resolvable head, the item source
follows the fixed priority and only the selected source is ever
materialized.  Tier 1: an explicit `entities` array is used for every
`items` value and every shared context (both free in `s`), and nothing
outside its normalization — e.g. `{entity: b}` from `items=[b]` — is
ever materialized.  Tier 2: with `entities` falsy, an explicit `items`
array is used, again for every shared context, and nothing outside it
(in particular no derived group member) is materialized.  Tier 3: only
when both explicit sources are undefined are the head entity's group
members read from the context and materialized, and nothing outside
them. -/
theorem _load_rows_item_source_priority (s : CompState)
    (hrows : s.rows = [])
    (hhead : isNullish (ensureObject (jsOr s.config.entity s.config.head)) = false) :
    (∀ es : List JSVal, s.config.entities = .arr es →
      ∃ s', _load_rows s = .ok s' ∧
        s'.rows.map Handle.srcDesc = es.map ensureObject ∧
        ∀ b : JSVal, (∀ e ∈ es, ensureObject e ≠ b) → ∀ r ∈ s'.rows, r.srcDesc ≠ b) ∧
    (∀ xs : List JSVal, truthy s.config.entities = false → s.config.items = .arr xs →
      ∃ s', _load_rows s = .ok s' ∧
        s'.rows.map Handle.srcDesc = xs.map ensureObject ∧
        ∀ b : JSVal, (∀ e ∈ xs, ensureObject e ≠ b) → ∀ r ∈ s'.rows, r.srcDesc ≠ b) ∧
    (∀ gs : List JSVal,
      jsOr s.config.entities s.config.items = .undef →
      truthy (getField (ensureObject (jsOr s.config.entity s.config.head)) "entity") = true →
      isNullish s.hass = false →
      isNullish (getField s.hass "states") = false →
      optField (optField (getField (getField s.hass "states")
          (keyOf (getField (ensureObject (jsOr s.config.entity s.config.head)) "entity")))
        "attributes") "entity_id" = .arr gs →
      ∃ s', _load_rows s = .ok s' ∧
        s'.rows.map Handle.srcDesc = gs.map ensureObject ∧
        ∀ b : JSVal, (∀ e ∈ gs, ensureObject e ≠ b) → ∀ r ∈ s'.rows, r.srcDesc ≠ b) := by
  refine ⟨?_, ?_, ?_⟩
  · intro es hent
    have hitems : jsOr s.config.entities s.config.items = .arr es := by
      rw [hent]
      exact jsOr_of_truthy _ _ rfl
    refine ⟨_, _load_rows_of_explicit_arr s es hrows hhead hitems,
      srcDesc_of_materialized s es, ?_⟩
    exact srcDesc_not_mem _ es (srcDesc_of_materialized s es)
  · intro xs hef hitems0
    have hitems : jsOr s.config.entities s.config.items = .arr xs := by
      rw [jsOr_of_falsy _ _ hef, hitems0]
    refine ⟨_, _load_rows_of_explicit_arr s xs hrows hhead hitems,
      srcDesc_of_materialized s xs, ?_⟩
    exact srcDesc_not_mem _ xs (srcDesc_of_materialized s xs)
  · intro gs hei hhe hhass hstates hgv
    refine ⟨_, _load_rows_of_group_arr s gs hrows hhead hei hhe hhass hstates hgv,
      srcDesc_of_materialized _ gs, ?_⟩
    exact srcDesc_not_mem _ gs (srcDesc_of_materialized _ gs)

/-- Witness for C1 exercising all three tiers: `entities=[a]` beats
`items=[b]` (and `b` is never materialized); with `entities` absent,
`items=[b]` is used; with both absent, the head group's members are
used. -/
def c1Config : Config :=
  { entity := .str "group.x", entities := .arr [.str "a"], items := .arr [.str "b"] }

def c1State : CompState :=
  { initState with config := applyDefaults c1Config }

def c1ItemsConfig : Config :=
  { entity := .str "group.x", items := .arr [.str "b"] }

def c1StateB : CompState :=
  { initState with config := applyDefaults c1ItemsConfig }

def c1GroupConfig : Config :=
  { entity := .str "group.x" }

def c1StateC : CompState :=
  { initState with
    config := applyDefaults c1GroupConfig
    hass := .obj [("states", .obj [("group.x", .obj [("attributes",
      .obj [("entity_id", .arr [.str "light.m1", .str "light.m2"])])])])] }

theorem _load_rows_item_source_priority_witness :
    (∃ s', _load_rows c1State = .ok s' ∧
      s'.rows.map Handle.srcDesc = [JSVal.str "a"].map ensureObject ∧
      ∀ r ∈ s'.rows, r.srcDesc ≠ JSVal.obj [("entity", .str "b")]) ∧
    (∃ s', _load_rows c1StateB = .ok s' ∧
      s'.rows.map Handle.srcDesc = [JSVal.str "b"].map ensureObject) ∧
    (∃ s', _load_rows c1StateC = .ok s' ∧
      s'.rows.map Handle.srcDesc
        = [JSVal.str "light.m1", JSVal.str "light.m2"].map ensureObject) := by
  refine ⟨?_, ?_, ?_⟩
  · rcases (_load_rows_item_source_priority c1State rfl rfl).1 [.str "a"] rfl
      with ⟨s', h1, h2, h3⟩
    refine ⟨s', h1, h2, h3 _ ?_⟩
    intro e he
    simp only [List.mem_singleton] at he
    subst he
    simp [ensureObject]
  · rcases (_load_rows_item_source_priority c1StateB rfl rfl).2.1 [.str "b"] rfl rfl
      with ⟨s', h1, h2, _⟩
    exact ⟨s', h1, h2⟩
  · rcases (_load_rows_item_source_priority c1StateC rfl rfl).2.2
        [.str "light.m1", .str "light.m2"] rfl rfl rfl rfl rfl
      with ⟨s', h1, h2, _⟩
    exact ⟨s', h1, h2⟩

/-! ## C2: idempotence of the child-row loader -/

/-- C2 counterexample: after a first `_load_rows` on a configuration
whose item source is the explicitly empty list, the cache holds an empty
row list, and a second `_load_rows` call does not return it unchanged:
the guard `if (this.rows.length)` does not fire, the loader re-runs, and
`this.rows` is reassigned to a freshly allocated (not identity-equal)
array. -/
def c2Config : Config :=
  { head := .str "sensor.x", entities := .arr [], open_ := .bool true }

def c2FirstLoadState : CompState :=
  stateOf (setConfig initState c2Config).outcome

theorem _load_rows_reruns_on_empty_cache :
    c2FirstLoadState.rows = [] ∧
    (stateOf (_load_rows c2FirstLoadState)).rowsArrId ≠ c2FirstLoadState.rowsArrId :=
  ⟨rfl, by decide⟩

/-- C2 amended: `_load_rows` is idempotent whenever the cached row list
is non-empty — the second call returns the component state completely
unchanged (same row handles, same array identity, no factory call).
When the resolved item list was empty, the cached empty list does not
trigger the guard and the loader re-runs, reassigning a fresh array (see
the counterexample). -/
theorem _load_rows_idempotent_nonempty (s : CompState) (h : s.rows ≠ []) :
    _load_rows s = .ok s := by
  unfold _load_rows
  rw [if_pos (by simpa [List.length_eq_zero] using h)]

def c2Handle : Handle :=
  { cfg := .obj [("entity", .str "light.a")]
    srcDesc := .obj [("entity", .str "light.a")]
    isHead := false
    hass := .undef
    hassPushes := 0
    id := 7
    ariaChecked := .undef
    ariaLabel := .undef
    role := .undef
    tabIndex := .undef }

def c2CachedState : CompState := { initState with rows := [c2Handle] }

theorem _load_rows_idempotent_nonempty_witness :
    _load_rows c2CachedState = .ok c2CachedState :=
  _load_rows_idempotent_nonempty c2CachedState (by simp [c2CachedState])

/-! ## C3: an explicitly empty list is a valid zero-row source -/

/-- C3: when `entities` is the explicitly empty array (or `entities` is
falsy and `items` is the explicitly empty array), `_load_rows` succeeds
with an empty child-row list and consults no further source: no factory
call is made and the result does not depend on the shared context or on
any derived group membership (the context is free in `s`). -/
theorem _load_rows_empty_list_source (s : CompState)
    (hrows : s.rows = [])
    (hhead : isNullish (ensureObject (jsOr s.config.entity s.config.head)) = false)
    (hempty : s.config.entities = .arr [] ∨
      (truthy s.config.entities = false ∧ s.config.items = .arr [])) :
    ∃ s', _load_rows s = .ok s' ∧ s'.rows = [] ∧ s'.factoryCalls = s.factoryCalls := by
  have hitems : jsOr s.config.entities s.config.items = .arr [] := by
    rcases hempty with h | ⟨hf, hi⟩
    · rw [h]; exact jsOr_of_truthy _ _ rfl
    · rw [jsOr_of_falsy _ _ hf, hi]
  exact ⟨_, _load_rows_of_explicit_arr s [] hrows hhead hitems, rfl, rfl⟩

/-- Witness for C3: `entities=[]` with a head entity `group.x` and a
shared context in which `group.x` has members — still zero rows and no
fallback. -/
def c3Config : Config :=
  { entity := .str "group.x", entities := .arr [] }

def c3State : CompState :=
  { initState with
    config := applyDefaults c3Config
    hass := .obj [("states", .obj
      [("group.x", .obj [("attributes", .obj [("entity_id", .arr [.str "light.a"])])])])] }

theorem _load_rows_empty_list_source_witness :
    ∃ s', _load_rows c3State = .ok s' ∧ s'.rows = [] ∧ s'.factoryCalls = c3State.factoryCalls :=
  _load_rows_empty_list_source c3State rfl rfl (Or.inl rfl)


/-! ## C4: error conditions of the row loader -/

theorem finish_load_rows_not_list (s : CompState) (items : JSVal)
    (h1 : isUndef items = false) (h2 : truthy items = false ∨ isArr items = false) :
    finish_load_rows s items = .err (.error "Entities must be a list.") s := by
  unfold finish_load_rows
  rw [if_neg (by simp [h1])]
  by_cases ht : truthy items = true
  · rw [if_neg (by simp [ht])]
    cases items <;> first | rfl | (exfalso; simp_all [truthy, isArr])
  · rw [if_pos (by simpa using ht)]

/-- C4 counterexample: on the configuration that sets nothing at all (so
no item source resolves to a defined value), `_load_rows` does not fail
with `"No entities specified."`: the unconditional read of `head.entity`
on the unresolvable head throws a `TypeError` first. -/
def c4HeadlessState : CompState :=
  { initState with config := applyDefaults {} }

theorem _load_rows_headless_type_error :
    _load_rows c4HeadlessState
      = .err (.typeError "Cannot read properties of undefined (reading entity)")
          c4HeadlessState ∧
    JSErr.typeError "Cannot read properties of undefined (reading entity)"
      ≠ JSErr.error "No entities specified." :=
  ⟨rfl, by decide⟩

/-- C4 amended: for every configuration whose head source resolves to a
non-nullish descriptor (the headless case instead throws a `TypeError`,
see the counterexample), `_load_rows` fails with
`"No entities specified."` when no item source resolves to a defined
value, and with `"Entities must be a list."` when the resolved item
source is defined but not an array; in either failure case the carried
state keeps the empty row list, so no child-row handle is created.  The
four conjuncts cover the explicit sources and the derived-group source
(the latter under a non-nullish context with a non-nullish state table,
since a nullish one again throws a `TypeError`). -/
theorem _load_rows_error_conditions (s : CompState)
    (headCfg explicitItems groupVal : JSVal)
    (hrows : s.rows = [])
    (hhc : headCfg = ensureObject (jsOr s.config.entity s.config.head))
    (hhead : isNullish headCfg = false)
    (hei : explicitItems = jsOr s.config.entities s.config.items)
    (hgv : groupVal = optField (optField (getField (getField s.hass "states")
        (keyOf (getField headCfg "entity"))) "attributes") "entity_id") :
    (truthy (getField headCfg "entity") = false → isUndef explicitItems = true →
        _load_rows s = .err (.error "No entities specified.") s) ∧
    (isUndef explicitItems = false →
        truthy explicitItems = false ∨ isArr explicitItems = false →
        _load_rows s = .err (.error "Entities must be a list.") s) ∧
    (truthy (getField headCfg "entity") = true → isUndef explicitItems = true →
        isNullish s.hass = false → isNullish (getField s.hass "states") = false →
        isUndef groupVal = true →
        _load_rows s = .err (.error "No entities specified.") { s with hassResolve := none }) ∧
    (truthy (getField headCfg "entity") = true → isUndef explicitItems = true →
        isNullish s.hass = false → isNullish (getField s.hass "states") = false →
        isUndef groupVal = false → truthy groupVal = false ∨ isArr groupVal = false →
        _load_rows s = .err (.error "Entities must be a list.") { s with hassResolve := none }) := by
  subst hhc hei hgv
  have hge := getFieldE_of_not_nullish (ensureObject (jsOr s.config.entity s.config.head)) "entity" hhead
  refine ⟨?_, ?_, ?_, ?_⟩
  · intro h1 h2
    unfold _load_rows
    rw [if_neg (by simp [hrows])]
    simp only [hge]
    rw [if_neg (by simp [h1])]
    unfold finish_load_rows
    rw [if_pos h2]
  · intro h1 h2
    unfold _load_rows
    rw [if_neg (by simp [hrows])]
    simp only [hge]
    rw [if_neg (by simp [h1])]
    exact finish_load_rows_not_list s _ h1 h2
  · intro h1 h2 h3 h4 h5
    unfold _load_rows
    rw [if_neg (by simp [hrows])]
    simp only [hge]
    rw [if_pos (by simp [h1, h2])]
    rw [if_neg (by simp [isUndef_of_not_nullish s.hass h3])]
    unfold load_rows_resume
    simp only [getFieldE_of_not_nullish s.hass "states" h3,
      getFieldE_of_not_nullish (getField s.hass "states") _ h4]
    unfold finish_load_rows
    rw [if_pos h5]
  · intro h1 h2 h3 h4 h5 h6
    unfold _load_rows
    rw [if_neg (by simp [hrows])]
    simp only [hge]
    rw [if_pos (by simp [h1, h2])]
    rw [if_neg (by simp [isUndef_of_not_nullish s.hass h3])]
    unfold load_rows_resume
    simp only [getFieldE_of_not_nullish s.hass "states" h3,
      getFieldE_of_not_nullish (getField s.hass "states") _ h4]
    exact finish_load_rows_not_list _ _ h5 h6

/-- Witness for the amended C4: a section head with no item source at
all fails with exactly `"No entities specified."`, leaving the empty
row list in place. -/
def c4SectionConfig : Config :=
  { head := .obj [("type", .str "section")] }

def c4SectionState : CompState :=
  { initState with config := applyDefaults c4SectionConfig }

theorem _load_rows_error_conditions_witness :
    _load_rows c4SectionState = .err (.error "No entities specified.") c4SectionState :=
  (_load_rows_error_conditions c4SectionState _ _ _ rfl rfl rfl rfl rfl).1 rfl rfl


/-! ## C5: head source requirement and priority -/

theorem _load_head_missing (s : CompState)
    (h1 : s.config.entity = .undef) (h2 : s.config.head = .undef) :
    _load_head s = .error (.error "No fold head specified") := by
  unfold _load_head
  rw [h1, h2]
  rfl

/-- All `_load_rows` code paths leave the header slot (and the fields a
row load never writes) untouched. -/
theorem _load_rows_preserves (s : CompState) :
    (stateOf (_load_rows s)).head = s.head ∧
    (stateOf (_load_rows s)).config = s.config ∧
    (stateOf (_load_rows s)).open_ = s.open_ ∧
    (stateOf (_load_rows s)).showContent = s.showContent ∧
    (stateOf (_load_rows s)).hass = s.hass := by
  unfold _load_rows load_rows_resume finish_load_rows
  dsimp only
  repeat' split
  all_goals exact ⟨rfl, rfl, rfl, rfl, rfl⟩

theorem _load_head_of_entity_str (s : CompState) (e : String) (hne : e ≠ "")
    (hent : s.config.entity = .str e) :
    ∃ s' h, _load_head s = .ok s' ∧ s'.head = some h ∧
      h.srcDesc = .obj [("entity", .str e)] ∧ h.isHead = true := by
  unfold _load_head
  rw [hent, jsOr_of_truthy _ _ (by simp [truthy, hne])]
  simp only [ensureObject]
  rw [if_neg (by simp [truthy])]
  rw [if_neg (by simp [getField, lookupField, isUndef])]
  by_cases hcl : truthy s.config.clickable = true
  · rw [if_pos hcl]
    exact ⟨_, _, rfl, rfl, by simp [_createRow], by simp [_createRow]⟩
  · rw [if_neg hcl]
    exact ⟨_, _, rfl, rfl, by simp [_createRow], by simp [_createRow]⟩

/-- C5: a configuration lacking both head-source fields makes the
asynchronous `_load_head` step reject with `"No fold head specified"`
and assigns no header handle (the slot keeps whatever it held); and
when `entity` holds an entity reference (a nonempty string — an empty
string is falsy and would fall through `entity || head`), the header is
built from `entity`, with `head` never consulted. -/
theorem head_source_priority_and_missing (s : CompState) (raw : Config) :
    (raw.entity = .undef → raw.head = .undef →
      (setConfig s raw).headErr = some (.error "No fold head specified") ∧
      (stateOf (setConfig s raw).outcome).head = s.head) ∧
    (∀ e : String, e ≠ "" → raw.entity = .str e →
      ∃ h : Handle, (stateOf (setConfig s raw).outcome).head = some h ∧
        h.srcDesc = .obj [("entity", .str e)] ∧ h.isHead = true) := by
  constructor
  · intro h1 h2
    unfold setConfig
    dsimp only
    rw [_load_head_missing _ (by simp [applyDefaults, h1]) (by simp [applyDefaults, h2])]
    dsimp only
    by_cases ho : truthy (applyDefaults raw).open_ = true
    · rw [if_pos ho]
      refine ⟨rfl, ?_⟩
      rw [(_load_rows_preserves _).1]
    · rw [if_neg ho]
      exact ⟨rfl, rfl⟩
  · intro e hne hent
    unfold setConfig
    dsimp only
    obtain ⟨s1, h, hok, hhead, hsrc, hish⟩ :=
      _load_head_of_entity_str
        { s with
          config := applyDefaults raw
          open_ := jsCoalesce s.open_ (jsCoalesce (applyDefaults raw).open_ (.bool false))
          showContent := jsCoalesce s.open_ (jsCoalesce (applyDefaults raw).open_ (.bool false)) }
        e hne (by simp [applyDefaults, hent])
    rw [hok]
    dsimp only
    by_cases ho : truthy (applyDefaults raw).open_ = true
    · rw [if_pos ho]
      refine ⟨h, ?_, hsrc, hish⟩
      rw [(_load_rows_preserves _).1]
      exact hhead
    · rw [if_neg ho]
      exact ⟨h, hhead, hsrc, hish⟩

/-- Witness for C5: the empty configuration rejects with
`"No fold head specified"`; a configuration with `entity="light.x"` and
a competing `head` builds the header from `entity`. -/
def c5Config : Config :=
  { entity := .str "light.x", head := .obj [("type", .str "section")] }

theorem head_source_priority_and_missing_witness :
    (setConfig initState ({} : Config)).headErr
        = some (.error "No fold head specified") ∧
    ∃ h : Handle, (stateOf (setConfig initState c5Config).outcome).head = some h ∧
      h.srcDesc = .obj [("entity", .str "light.x")] ∧ h.isHead = true :=
  ⟨((head_source_priority_and_missing initState {}).1 rfl rfl).1,
   (head_source_priority_and_missing initState c5Config).2 "light.x" (by decide) rfl⟩


/-! ## C6: auto-derivation of `clickable` -/

theorem isUndef_eq_false_of_ne (v : JSVal) (h : v ≠ .undef) : isUndef v = false := by
  cases v <;> simp_all [isUndef]

theorem _load_head_sets_clickable (s : CompState)
    (hh : truthy (ensureObject (jsOr s.config.entity s.config.head)) = true)
    (hcl : isUndef s.config.clickable = true)
    (he : isUndef (getField (ensureObject (jsOr s.config.entity s.config.head)) "entity") = true)
    (ht : isUndef (getField (ensureObject (jsOr s.config.entity s.config.head)) "tap_action") = true) :
    ∃ s', _load_head s = .ok s' ∧ s'.config.clickable = .bool true := by
  unfold _load_head
  rw [if_neg (by simp [hh])]
  rw [if_pos ⟨hcl, he, ht⟩]
  dsimp only
  rw [if_pos (show truthy (JSVal.bool true) = true from rfl)]
  exact ⟨_, rfl, rfl⟩

theorem _load_head_keeps_clickable (s : CompState)
    (hh : truthy (ensureObject (jsOr s.config.entity s.config.head)) = true)
    (hnc : isUndef s.config.clickable = false
        ∨ isUndef (getField (ensureObject (jsOr s.config.entity s.config.head)) "entity") = false
        ∨ isUndef (getField (ensureObject (jsOr s.config.entity s.config.head)) "tap_action") = false) :
    ∃ s', _load_head s = .ok s' ∧ s'.config.clickable = s.config.clickable := by
  unfold _load_head
  rw [if_neg (by simp [hh])]
  rw [if_neg (by intro hand; rcases hnc with h | h | h <;> simp_all)]
  dsimp only
  by_cases hclk : truthy s.config.clickable = true
  · rw [if_pos hclk]
    exact ⟨_, rfl, rfl⟩
  · rw [if_neg hclk]
    exact ⟨_, rfl, rfl⟩

/-- C6 counterexample: with `clickable` unset and a head of
`{entity: "light.x"}`, the resolved configuration's `clickable` is left
`undefined` — it is not set to `false` (the two are distinct
configuration values; `undefined` merely behaves falsily wherever the
component tests it). -/
def c6Config : Config :=
  { entity := .str "light.x" }

theorem clickable_not_false_for_entity_head :
    (stateOf (setConfig initState c6Config).outcome).config.clickable = .undef ∧
    JSVal.undef ≠ JSVal.bool false :=
  ⟨rfl, fun h => JSVal.noConfusion h⟩

/-- C6 amended: when `clickable` is unset, `_load_head` sets it to
`true` exactly when the normalized head descriptor has neither a defined
`entity` field nor a defined `tap_action` field, and otherwise leaves it
`undefined` (not `false`); an explicitly set `clickable` value is never
overridden. -/
theorem clickable_auto_derivation (s : CompState)
    (hh : truthy (ensureObject (jsOr s.config.entity s.config.head)) = true) :
    (s.config.clickable = .undef →
      ∃ s', _load_head s = .ok s' ∧
        (s'.config.clickable = .bool true ↔
          (isUndef (getField (ensureObject (jsOr s.config.entity s.config.head)) "entity") = true ∧
           isUndef (getField (ensureObject (jsOr s.config.entity s.config.head)) "tap_action") = true)) ∧
        (¬ (isUndef (getField (ensureObject (jsOr s.config.entity s.config.head)) "entity") = true ∧
            isUndef (getField (ensureObject (jsOr s.config.entity s.config.head)) "tap_action") = true) →
          s'.config.clickable = .undef)) ∧
    (s.config.clickable ≠ .undef →
      ∃ s', _load_head s = .ok s' ∧ s'.config.clickable = s.config.clickable) := by
  constructor
  · intro hcl
    by_cases hcond :
        isUndef (getField (ensureObject (jsOr s.config.entity s.config.head)) "entity") = true
        ∧ isUndef (getField (ensureObject (jsOr s.config.entity s.config.head)) "tap_action") = true
    · obtain ⟨s', hok, hset⟩ :=
        _load_head_sets_clickable s hh (by rw [hcl]; rfl) hcond.1 hcond.2
      refine ⟨s', hok, ?_, fun hcon => absurd hcond hcon⟩
      rw [hset]
      simp [hcond.1, hcond.2]
    · have hnc : isUndef s.config.clickable = false
          ∨ isUndef (getField (ensureObject (jsOr s.config.entity s.config.head)) "entity") = false
          ∨ isUndef (getField (ensureObject (jsOr s.config.entity s.config.head)) "tap_action") = false := by
        rcases not_and_or.mp hcond with h | h
        · exact Or.inr (Or.inl (by simpa using h))
        · exact Or.inr (Or.inr (by simpa using h))
      obtain ⟨s', hok, hkeep⟩ := _load_head_keeps_clickable s hh hnc
      refine ⟨s', hok, ?_, fun _ => hkeep.trans hcl⟩
      rw [hkeep, hcl]
      exact ⟨fun h => JSVal.noConfusion h, fun h => absurd h hcond⟩
  · intro hcl
    exact _load_head_keeps_clickable s hh (Or.inl (isUndef_eq_false_of_ne _ hcl))

/-- Witness for the amended C6: a `{type: "section", label: "Y"}` head
with `clickable` unset resolves `clickable` to `true`. -/
def c6SectionConfig : Config :=
  { head := .obj [("type", .str "section"), ("label", .str "Y")] }

def c6SectionState : CompState :=
  { initState with config := applyDefaults c6SectionConfig }

theorem clickable_auto_derivation_witness :
    ∃ s', _load_head c6SectionState = .ok s' ∧ s'.config.clickable = .bool true := by
  rcases (clickable_auto_derivation c6SectionState rfl).1 rfl with ⟨s', hok, hiff, _⟩
  exact ⟨s', hok, hiff.mpr ⟨rfl, rfl⟩⟩


/-! ## C7: order preservation under arbitrary completion order -/

theorem completeStep_length (tasks : List α) (acc : List (Option α)) (i : Nat) :
    (completeStep tasks acc i).length = acc.length := by
  unfold completeStep
  split <;> simp

theorem foldl_completeStep_length (order : List Nat) (tasks : List α) (acc : List (Option α)) :
    (order.foldl (completeStep tasks) acc).length = acc.length := by
  induction order generalizing acc with
  | nil => rfl
  | cons i rest ih => rw [List.foldl_cons, ih, completeStep_length]

theorem foldl_completeStep_getElem_of_not_mem (order : List Nat) (tasks : List α)
    (acc : List (Option α)) (j : Nat) (hj : j ∉ order) :
    (order.foldl (completeStep tasks) acc)[j]? = acc[j]? := by
  induction order generalizing acc with
  | nil => rfl
  | cons i rest ih =>
    rw [List.foldl_cons, ih _ (fun hm => hj (List.mem_cons_of_mem i hm))]
    have hne : i ≠ j := fun he => hj (he ▸ List.mem_cons_self i rest)
    unfold completeStep
    split
    · exact List.getElem?_set_ne hne
    · rfl

theorem foldl_completeStep_getElem_of_mem (order : List Nat) (tasks : List α)
    (acc : List (Option α)) (j : Nat) (hnd : order.Nodup) (hmem : j ∈ order)
    (hjt : j < tasks.length) (hjacc : j < acc.length) :
    (order.foldl (completeStep tasks) acc)[j]? = some (some tasks[j]) := by
  induction order generalizing acc with
  | nil => cases hmem
  | cons i rest ih =>
    rw [List.foldl_cons]
    rcases List.mem_cons.mp hmem with he | hm
    · subst he
      have hnr : j ∉ rest := (List.nodup_cons.mp hnd).1
      rw [foldl_completeStep_getElem_of_not_mem rest tasks _ j hnr]
      unfold completeStep
      rw [List.getElem?_eq_getElem hjt]
      exact List.getElem?_set_self hjacc
    · exact ih _ (List.nodup_cons.mp hnd).2 hm (by rw [completeStep_length]; exact hjacc)

/-- Gathering the concurrent factory calls in any completion order fills
the result buffer so that reading it in index order yields exactly the
task list: `Promise.all` output order is the item order, not the
completion order. -/
theorem promiseAll_of_perm (order : List Nat) (tasks : List α)
    (h : List.Perm order (List.range tasks.length)) :
    promiseAll order tasks = tasks.map (some : α → Option α) := by
  have hnd : order.Nodup := h.symm.nodup (List.nodup_range tasks.length)
  apply List.ext_getElem?
  intro j
  by_cases hj : j < tasks.length
  · have hmem : j ∈ order := h.mem_iff.mpr (List.mem_range.mpr hj)
    unfold promiseAll
    rw [foldl_completeStep_getElem_of_mem order tasks _ j hnd hmem hj
        (by rw [List.length_replicate]; exact hj)]
    rw [List.getElem?_map, List.getElem?_eq_getElem hj]
    rfl
  · have h1 : (promiseAll order tasks).length ≤ j := by
      unfold promiseAll
      rw [foldl_completeStep_length, List.length_replicate]
      omega
    have h2 : (tasks.map (some : α → Option α)).length ≤ j := by
      rw [List.length_map]
      omega
    rw [List.getElem?_eq_none h1, List.getElem?_eq_none h2]

/-- C7: for a resolved item list given by an explicit `entities` array,
`_load_rows` caches one handle per item, and replaying the concurrent
factory completions in any order whatsoever through the `Promise.all`
model reproduces the cached list in item order — the row list has the
item-list length and its descriptors follow the item list, regardless of
completion order. -/
theorem rows_order_independent_of_completion (s : CompState) (es : List JSVal)
    (order : List Nat)
    (hrows : s.rows = [])
    (hhead : isNullish (ensureObject (jsOr s.config.entity s.config.head)) = false)
    (hent : s.config.entities = .arr es)
    (hperm : List.Perm order (List.range es.length)) :
    ∃ s', _load_rows s = .ok s' ∧
      s'.rows.length = es.length ∧
      s'.rows.map Handle.srcDesc = es.map ensureObject ∧
      promiseAll order s'.rows = s'.rows.map some := by
  have hitems : jsOr s.config.entities s.config.items = .arr es := by
    rw [hent]
    exact jsOr_of_truthy _ _ rfl
  refine ⟨_, _load_rows_of_explicit_arr s es hrows hhead hitems, ?_, srcDesc_of_materialized s es, ?_⟩
  · simp
  · apply promiseAll_of_perm
    have hlen : ((es.map ensureObject).enum.map
        (fun p => _createRow s p.2 false (s.nextId + p.1))).length = es.length := by
      simp
    rw [hlen]
    exact hperm

/-- Witness for C7 at the claim's instance: `entities=[x,y,z]` with the
factory completing `z` first, then `x`, then `y` (completion order
`[2,0,1]`); the cached list still follows `[x,y,z]`. -/
def c7Config : Config :=
  { head := .str "sensor.h", entities := .arr [.str "x", .str "y", .str "z"] }

def c7State : CompState :=
  { initState with config := applyDefaults c7Config }

theorem rows_order_independent_of_completion_witness :
    ∃ s', _load_rows c7State = .ok s' ∧
      s'.rows.length = 3 ∧
      s'.rows.map Handle.srcDesc
        = [JSVal.str "x", JSVal.str "y", JSVal.str "z"].map ensureObject ∧
      promiseAll [2, 0, 1] s'.rows = s'.rows.map some :=
  rows_order_independent_of_completion c7State
    [.str "x", .str "y", .str "z"] [2, 0, 1] rfl rfl rfl (by decide)


/-! ## C8: toggle round trip and accessibility sync -/

/-- Destructing a successful `toggle`: the committed `open` is the
negation of the prior one, the config is untouched, and — when the
config is clickable — the header handle carries the `aria` state of the
new `open` value. -/
theorem _load_rows_ok_preserves (t s' : CompState) (h : _load_rows t = .ok s') :
    s'.head = t.head ∧ s'.config = t.config ∧ s'.open_ = t.open_ ∧
    s'.showContent = t.showContent ∧ s'.hass = t.hass := by
  have hp := _load_rows_preserves t
  rw [h] at hp
  exact hp

theorem toggle_ok_dest (s s1 : CompState) (sh : Nat) (h : toggle s sh = .ok s1) :
    s1.open_ = .bool (! truthy s.open_) ∧
    s1.config = s.config ∧
    (truthy s.config.clickable = true →
      ∃ hd, s1.head = some hd ∧
        hd.ariaChecked = .str (if ! truthy s.open_ then "true" else "false") ∧
        hd.ariaLabel = .str (if ! truthy s.open_ then "Toggle fold closed" else "Toggle fold open")) := by
  unfold toggle at h
  dsimp only at h
  by_cases ho : truthy s.open_ = true
  · rw [ho] at h
    simp only [Bool.not_true, Bool.not_false, Bool.false_eq_true, if_false, if_true] at h
    rw [ho]
    simp only [Bool.not_true, Bool.not_false, Bool.false_eq_true, if_false, if_true]
    by_cases hcl : truthy s.config.clickable = true
    · rw [if_pos hcl] at h
      rcases hh : s.head with _ | hd
      · rw [hh] at h
        exact LoadOutcome.noConfusion h
      · rw [hh] at h
        cases h
        exact ⟨rfl, rfl, fun _ => ⟨_, rfl, rfl, rfl⟩⟩
    · rw [if_neg hcl] at h
      cases h
      exact ⟨rfl, rfl, fun hc => absurd hc hcl⟩
  · have ho' : truthy s.open_ = false := by simpa using ho
    rw [ho'] at h
    simp only [Bool.not_true, Bool.not_false, Bool.false_eq_true, if_false, if_true] at h
    rw [ho']
    simp only [Bool.not_true, Bool.not_false, Bool.false_eq_true, if_false, if_true]
    split at h
    · exact LoadOutcome.noConfusion h
    · exact LoadOutcome.noConfusion h
    · rename_i s1' heq
      obtain ⟨hph, hpc, hpo, hps, hphs⟩ := _load_rows_ok_preserves _ _ heq
      have hpc' : s1'.config = s.config := hpc
      have hph' : s1'.head = s.head := hph
      rw [hpc'] at h
      by_cases hcl : truthy s.config.clickable = true
      · rw [if_pos hcl] at h
        rw [hph'] at h
        rcases hh : s.head with _ | hd
        · rw [hh] at h
          exact LoadOutcome.noConfusion h
        · rw [hh] at h
          cases h
          exact ⟨rfl, rfl, fun _ => ⟨_, rfl, rfl, rfl⟩⟩
      · rw [if_neg hcl] at h
        cases h
        exact ⟨rfl, rfl, fun hc => absurd hc hcl⟩

/-- C8: a successful `toggle` commits `open` to the negation of its
prior value; when the (unchanged) config is clickable the header handle
shows `aria-checked="true"` exactly when the new `open` is true, with
the matching label; the transition-end hook then makes the
content-mounted flag equal `open`; and a second successful `toggle`
restores the original `open`. -/
theorem toggle_spec (s s1 : CompState) (sh : Nat) (h : toggle s sh = .ok s1) :
    truthy s1.open_ = (! truthy s.open_) ∧
    (truthy s1.config.clickable = true →
      ∃ hd, s1.head = some hd ∧
        (hd.ariaChecked = .str "true" ↔ truthy s1.open_ = true) ∧
        hd.ariaLabel = .str (if truthy s1.open_ then "Toggle fold closed" else "Toggle fold open")) ∧
    (_transitionEnd s1).showContent = s1.open_ ∧
    (∀ s2 sh2, toggle s1 sh2 = .ok s2 → truthy s2.open_ = truthy s.open_) := by
  obtain ⟨hopen, hcfg, haria⟩ := toggle_ok_dest s s1 sh h
  have htr : truthy s1.open_ = ! truthy s.open_ := by rw [hopen]; rfl
  refine ⟨htr, ?_, rfl, ?_⟩
  · intro hcl
    rw [hcfg] at hcl
    obtain ⟨hd, hhd, hc, hl⟩ := haria hcl
    refine ⟨hd, hhd, ?_, ?_⟩
    · rw [hc, htr]
      cases hb : truthy s.open_ <;> simp
    · rw [hl, htr]
  · intro s2 sh2 h2
    have := (toggle_ok_dest s1 s2 sh2 h2).1
    rw [this, htr]
    cases truthy s.open_ <;> rfl

/-- Witness for C8: a closed, clickable component with one cached row
toggles open successfully; all four conjuncts are discharged at it. -/
def c8Head : Handle :=
  { cfg := .obj [("type", .str "section")]
    srcDesc := .obj [("type", .str "section")]
    isHead := true
    hass := .undef
    hassPushes := 0
    id := 1
    ariaChecked := .str "false"
    ariaLabel := .str "Toggle fold open"
    role := .str "switch"
    tabIndex := .num 0 }

def c8Row : Handle :=
  { cfg := .obj [("entity", .str "light.a")]
    srcDesc := .obj [("entity", .str "light.a")]
    isHead := false
    hass := .undef
    hassPushes := 0
    id := 2
    ariaChecked := .undef
    ariaLabel := .undef
    role := .undef
    tabIndex := .undef }

def c8Config : Config :=
  { head := .obj [("type", .str "section")], clickable := .bool true, open_ := .bool false }

def c8State : CompState :=
  { initState with
    config := applyDefaults c8Config
    open_ := .bool false
    showContent := .bool false
    rows := [c8Row]
    head := some c8Head }

def c8After : CompState := stateOf (toggle c8State 42)

theorem toggle_spec_witness :
    truthy c8After.open_ = (! truthy c8State.open_) ∧
    (truthy c8After.config.clickable = true →
      ∃ hd, c8After.head = some hd ∧
        (hd.ariaChecked = .str "true" ↔ truthy c8After.open_ = true) ∧
        hd.ariaLabel = .str (if truthy c8After.open_ then "Toggle fold closed" else "Toggle fold open")) ∧
    (_transitionEnd c8After).showContent = c8After.open_ ∧
    (∀ s2 sh2, toggle c8After sh2 = .ok s2 → truthy s2.open_ = truthy c8State.open_) :=
  toggle_spec c8State c8After 42 rfl


/-! ## C9: propagation of the shared context -/

theorem finish_load_rows_state (t : CompState) (items : JSVal) :
    (stateOf (finish_load_rows t items)).hassResolve = t.hassResolve ∧
    (stateOf (finish_load_rows t items)).hass = t.hass := by
  unfold finish_load_rows
  dsimp only
  repeat' split
  all_goals exact ⟨rfl, rfl⟩

theorem load_rows_resume_state (t : CompState) (hc : JSVal) :
    (stateOf (load_rows_resume t hc)).hassResolve = none ∧
    (stateOf (load_rows_resume t hc)).hass = t.hass := by
  unfold load_rows_resume
  dsimp only
  repeat' split
  · exact ⟨rfl, rfl⟩
  · exact ⟨rfl, rfl⟩
  · exact ⟨(finish_load_rows_state _ _).1, (finish_load_rows_state _ _).2⟩

theorem _load_rows_outcome_waiter (t : CompState) (hcfg : JSVal)
    (hw : t.hassResolve = some hcfg) (hh : t.hass = .undef) :
    ∃ hc, (stateOf (_load_rows t)).hassResolve = some hc := by
  unfold _load_rows
  dsimp only
  by_cases hr : t.rows.length ≠ 0
  · rw [if_pos hr]
    exact ⟨hcfg, hw⟩
  · rw [if_neg hr]
    rcases hge : getFieldE (ensureObject (jsOr t.config.entity t.config.head)) "entity"
      with e | he
    all_goals dsimp only
    · exact ⟨hcfg, hw⟩
    · by_cases hcond : truthy he = true
          ∧ isUndef (jsOr t.config.entities t.config.items) = true
      · rw [if_pos hcond, hh]
        rw [if_pos (show isUndef JSVal.undef = true from rfl)]
        exact ⟨_, rfl⟩
      · rw [if_neg hcond]
        rw [(finish_load_rows_state t _).1]
        exact ⟨hcfg, hw⟩

theorem _load_rows_any_waiter (t : CompState) (o : LoadOutcome) (hcfg : JSVal)
    (heq : _load_rows t = o) (hw : t.hassResolve = some hcfg) (hh : t.hass = .undef) :
    ∃ hc, (stateOf o).hassResolve = some hc := by
  subst heq
  exact _load_rows_outcome_waiter t hcfg hw hh

theorem toggle_keeps_waiter (s : CompState) (sh : Nat) (hcfg : JSVal)
    (hw : s.hassResolve = some hcfg) (hh : s.hass = .undef) :
    ∃ hc, (stateOf (toggle s sh)).hassResolve = some hc := by
  unfold toggle
  dsimp only
  by_cases ho : truthy s.open_ = true
  · rw [ho]
    simp only [Bool.not_true, Bool.not_false, Bool.false_eq_true, if_false, if_true]
    by_cases hcl : truthy s.config.clickable = true
    · rw [if_pos hcl]
      rcases hhd : s.head with _ | hd
      all_goals dsimp only
      · exact ⟨hcfg, hw⟩
      · exact ⟨hcfg, hw⟩
    · rw [if_neg hcl]
      exact ⟨hcfg, hw⟩
  · have ho' : truthy s.open_ = false := by simpa using ho
    rw [ho']
    simp only [Bool.not_true, Bool.not_false, Bool.false_eq_true, if_false, if_true]
    split
    · rename_i e s' heq
      exact _load_rows_any_waiter _ _ hcfg heq hw hh
    · rename_i s' heq
      exact _load_rows_any_waiter _ _ hcfg heq hw hh
    · rename_i s' heq
      obtain ⟨hc, hres⟩ := _load_rows_any_waiter _ _ hcfg heq hw hh
      by_cases hcl : truthy s'.config.clickable = true
      · rw [if_pos hcl]
        rcases hhd : s'.head with _ | hd
        all_goals dsimp only
        · exact ⟨hc, hres⟩
        · exact ⟨hc, hres⟩
      · rw [if_neg hcl]
        exact ⟨hc, hres⟩

/-- C9: assigning the shared context pushes it onto every cached child
row handle and onto the header handle exactly once per assignment —
same handle identities, same handle count, no factory call — and clears
any pending-context waiter by resuming the suspended `_load_rows` frame
with its stored head descriptor (over the already-pushed state).
Moreover, with the context still absent, neither `toggle` nor the
transition-end hook ever discharges a pending waiter: the context
assignment is the only unblocking path. -/
theorem context_propagation (s : CompState) (ctx : JSVal) :
    (s.hassResolve = none →
      ∃ s', updated s ctx = .ok s' ∧
        s'.hass = ctx ∧
        s'.hassResolve = none ∧
        s'.factoryCalls = s.factoryCalls ∧
        s'.rows.map Handle.id = s.rows.map Handle.id ∧
        (∀ r ∈ s'.rows, r.hass = ctx) ∧
        s'.rows.map Handle.hassPushes = s.rows.map (fun r => r.hassPushes + 1) ∧
        s'.head = s.head.map (pushHass ctx)) ∧
    (∀ hcfg, s.hassResolve = some hcfg →
      updated s ctx = load_rows_resume
        { s with
          hass := ctx
          rows := s.rows.map (pushHass ctx)
          head := s.head.map (pushHass ctx) } hcfg ∧
      (stateOf (updated s ctx)).hassResolve = none ∧
      (stateOf (updated s ctx)).hass = ctx) ∧
    (∀ hcfg, s.hassResolve = some hcfg → s.hass = .undef →
      (∀ sh : Nat, ∃ hc, (stateOf (toggle s sh)).hassResolve = some hc) ∧
      (_transitionEnd s).hassResolve = some hcfg) := by
  refine ⟨?_, ?_, ?_⟩
  · intro hw
    have hu : updated s ctx = .ok
        { s with
          hass := ctx
          rows := s.rows.map (pushHass ctx)
          head := s.head.map (pushHass ctx) } := by
      unfold updated
      dsimp only
      rw [hw]
    refine ⟨_, hu, rfl, hw, rfl, ?_, ?_, ?_, rfl⟩
    · rw [List.map_map]
      rfl
    · intro r hr
      rcases List.mem_map.mp hr with ⟨r0, _, hr0⟩
      rw [← hr0]
      rfl
    · rw [List.map_map]
      rfl
  · intro hcfg hw
    have hu : updated s ctx = load_rows_resume
        { s with
          hass := ctx
          rows := s.rows.map (pushHass ctx)
          head := s.head.map (pushHass ctx) } hcfg := by
      unfold updated
      dsimp only
      rw [hw]
    refine ⟨hu, ?_, ?_⟩
    · rw [hu]
      exact (load_rows_resume_state _ _).1
    · rw [hu]
      exact (load_rows_resume_state _ _).2
  · intro hcfg hw hh
    exact ⟨fun sh => toggle_keeps_waiter s sh hcfg hw hh, hw⟩

/-- Witness for C9: two cached rows and a resolved header, no waiter;
one assignment pushes the context everywhere exactly once. -/
def c9Head : Handle :=
  { cfg := .obj [("entity", .str "group.g")]
    srcDesc := .obj [("entity", .str "group.g")]
    isHead := true
    hass := .undef
    hassPushes := 0
    id := 1
    ariaChecked := .undef
    ariaLabel := .undef
    role := .undef
    tabIndex := .undef }

def c9RowA : Handle :=
  { c9Head with isHead := false, id := 2, srcDesc := .obj [("entity", .str "light.a")] }

def c9RowB : Handle :=
  { c9Head with isHead := false, id := 3, srcDesc := .obj [("entity", .str "light.b")] }

def c9State : CompState :=
  { initState with rows := [c9RowA, c9RowB], head := some c9Head }

def c9Ctx : JSVal :=
  .obj [("states", .obj [])]

theorem context_propagation_witness :
    ∃ s', updated c9State c9Ctx = .ok s' ∧
      s'.hass = c9Ctx ∧
      s'.hassResolve = none ∧
      s'.factoryCalls = c9State.factoryCalls ∧
      s'.rows.map Handle.id = c9State.rows.map Handle.id ∧
      (∀ r ∈ s'.rows, r.hass = c9Ctx) ∧
      s'.rows.map Handle.hassPushes = c9State.rows.map (fun r => r.hassPushes + 1) ∧
      s'.head = c9State.head.map (pushHass c9Ctx) :=
  (context_propagation c9State c9Ctx).1 rfl


/-! ## C10: open-state retention across reconfiguration -/

theorem _load_head_ok_preserves (s s' : CompState) (h : _load_head s = .ok s') :
    s'.open_ = s.open_ ∧ s'.showContent = s.showContent ∧ s'.rows = s.rows ∧
    s'.factoryCalls = s.factoryCalls + 1 := by
  unfold _load_head at h
  dsimp only at h
  split at h
  · exact Except.noConfusion h
  · split at h
    all_goals
      cases h
      exact ⟨rfl, rfl, rfl, rfl⟩

/-- Final `open`/`showContent` after `setConfig`: the component keeps
its own `open` when set (`this.open ?? config.open ?? false`), and the
mount flag mirrors it. -/
theorem setConfig_open_eq (s : CompState) (raw : Config) :
    (stateOf (setConfig s raw).outcome).open_
      = jsCoalesce s.open_ (jsCoalesce (applyDefaults raw).open_ (.bool false)) ∧
    (stateOf (setConfig s raw).outcome).showContent
      = jsCoalesce s.open_ (jsCoalesce (applyDefaults raw).open_ (.bool false)) := by
  unfold setConfig
  dsimp only
  split
  · split
    · rename_i s2 heq
      obtain ⟨ho, hs, _, _⟩ := _load_head_ok_preserves _ _ heq
      constructor
      · rw [(_load_rows_preserves _).2.2.1]
        exact ho
      · rw [(_load_rows_preserves _).2.2.2.1]
        exact hs
    · constructor
      · rw [(_load_rows_preserves _).2.2.1]
      · rw [(_load_rows_preserves _).2.2.2.1]
  · split
    · rename_i s2 heq
      obtain ⟨ho, hs, _, _⟩ := _load_head_ok_preserves _ _ heq
      exact ⟨ho, hs⟩
    · exact ⟨rfl, rfl⟩

/-- C10: on a repeated `setConfig`, an already-set `open` is retained
(the new configuration's `open` is consulted only when the component's
`open` was never set), while the eager child-row load is decided from
the new merged configuration's `open` alone — so with the component
open and the new config's `open` falsy, the component stays open (and
mounted) with an empty row list and no eager load (at most the one head
factory call happens). -/
theorem setConfig_open_retention (s : CompState) (raw : Config) :
    (∀ b : Bool, s.open_ = .bool b →
      (stateOf (setConfig s raw).outcome).open_ = .bool b ∧
      (stateOf (setConfig s raw).outcome).showContent = .bool b) ∧
    (s.open_ = .undef →
      (stateOf (setConfig s raw).outcome).open_
        = jsCoalesce (applyDefaults raw).open_ (.bool false)) ∧
    (truthy (applyDefaults raw).open_ = false →
      ∃ s', (setConfig s raw).outcome = .ok s' ∧ s'.rows = [] ∧
        s'.factoryCalls ≤ s.factoryCalls + 1) := by
  refine ⟨?_, ?_, ?_⟩
  · intro b hb
    have h := setConfig_open_eq s raw
    rw [hb] at h
    simpa [jsCoalesce, isNullish] using h
  · intro hb
    have h := (setConfig_open_eq s raw).1
    rw [hb] at h
    simpa [jsCoalesce, isNullish] using h
  · intro hopen
    unfold setConfig
    dsimp only
    rw [if_neg (by simp [hopen])]
    dsimp only
    split
    · rename_i s2 heq
      obtain ⟨_, _, _, hf⟩ := _load_head_ok_preserves _ _ heq
      exact ⟨_, rfl, rfl, by rw [hf]⟩
    · exact ⟨_, rfl, rfl, Nat.le_succ _⟩

/-- Witness for C10: a component whose `open` is `true` reconfigured
with `open=false` stays open and mounted, with an empty row list and no
eager load. -/
def c10State : CompState :=
  { initState with
    config := applyDefaults { entity := .str "light.x", open_ := .bool true }
    open_ := .bool true
    showContent := .bool true }

def c10NewConfig : Config :=
  { entity := .str "light.x", open_ := .bool false }

theorem setConfig_open_retention_witness :
    ((stateOf (setConfig c10State c10NewConfig).outcome).open_ = .bool true ∧
      (stateOf (setConfig c10State c10NewConfig).outcome).showContent = .bool true) ∧
    ∃ s', (setConfig c10State c10NewConfig).outcome = .ok s' ∧ s'.rows = [] ∧
      s'.factoryCalls ≤ c10State.factoryCalls + 1 :=
  ⟨(setConfig_open_retention c10State c10NewConfig).1 true rfl,
   (setConfig_open_retention c10State c10NewConfig).2.2 rfl⟩

end FoldEntityRow
